import Mathlib

/-!
# Verification of the queen migration engine against its specification

This file gives a shallow embedding, in Lean 4, of the parts of the queen
database-migration library that the checked claims are about:

* the SHA-256 content checksum with whitespace normalization
  (internal/checksum/checksum.go);
* the `Migration` entity: structural validation, checksum policy, destructive
  detection and up/down body dispatch (migration.go);
* the naming validator `IsValidMigrationName` (naming helper);
* the error taxonomy and `MigrationError` wrapping (errors.go);
* the lock-table acquire loop with exponential backoff
  (drivers/base/tablelock.go) and the `Unlock` statements of the
  cockroachdb and clickhouse drivers.

Go machine integers are modelled as `Nat` with explicit reduction modulo
2 ^ 32 where 32-bit overflow matters; Go strings are Lean `String`s, with
their Go byte-level view recovered through an explicit UTF-8 encoder;
Go `error` results are `Option` values (`none` = nil).  Opaque runtime
values (migration callbacks) are modelled by `Option Unit`: the embedded
logic only ever observes their nil-ness, exactly as the Go code does.
-/

namespace Queen

/-! ## Bytes and UTF-8

Go strings are byte strings; `len` counts bytes and `crypto/sha256` hashes
bytes.  `utf8EncodeChar` is the standard UTF-8 encoding of one code point,
so `utf8Bytes s` is the byte content of the Go string literal `s`. -/

/-- UTF-8 encoding of a single code point, as its 1 to 4 bytes. -/
def utf8EncodeChar (c : Char) : List Nat :=
  let n := c.toNat
  if n < 0x80 then
    [n]
  else if n < 0x800 then
    [0xC0 ||| (n >>> 6), 0x80 ||| (n &&& 0x3F)]
  else if n < 0x10000 then
    [0xE0 ||| (n >>> 12), 0x80 ||| ((n >>> 6) &&& 0x3F), 0x80 ||| (n &&& 0x3F)]
  else
    [0xF0 ||| (n >>> 18), 0x80 ||| ((n >>> 12) &&& 0x3F),
      0x80 ||| ((n >>> 6) &&& 0x3F), 0x80 ||| (n &&& 0x3F)]

/-- The bytes of a Go string: UTF-8 encoding of its code points. -/
def utf8Bytes (s : String) : List Nat :=
  (s.data.map utf8EncodeChar).flatten

/-- Go `len(s)` on a string counts UTF-8 bytes, not code points. -/
def goStrLen (s : String) : Nat :=
  (utf8Bytes s).length

theorem utf8Bytes_append (s t : String) :
    utf8Bytes (s ++ t) = utf8Bytes s ++ utf8Bytes t := by
  show ((s.data ++ t.data).map utf8EncodeChar).flatten
      = (s.data.map utf8EncodeChar).flatten ++ (t.data.map utf8EncodeChar).flatten
  rw [List.map_append, List.flatten_append]

/-! ## SHA-256 (FIPS 180-4)

The checksum package hashes with Go standard `crypto/sha256`.  That library
is not part of this repository; the definitions below are the standard
SHA-256 algorithm over `Nat` words reduced modulo 2 ^ 32, executable by the
kernel so that concrete digests can be computed inside proofs. -/

/-- 2 ^ 32, the modulus for 32-bit words. -/
def m32 : Nat := 4294967296

/-- 32-bit addition. -/
def add32 (a b : Nat) : Nat := (a + b) % m32

/-- Rotate a 32-bit word right by `n` bits (input assumed below 2 ^ 32). -/
def rotr32 (n x : Nat) : Nat :=
  ((x >>> n) ||| ((x <<< (32 - n)) % m32))

/-- Bitwise complement on 32 bits. -/
def not32 (x : Nat) : Nat := 4294967295 ^^^ x

/-- The 64 SHA-256 round constants. -/
def shaK : List Nat :=
  [1116352408, 1899447441, 3049323471, 3921009573,
   961987163, 1508970993, 2453635748, 2870763221,
   3624381080, 310598401, 607225278, 1426881987,
   1925078388, 2162078206, 2614888103, 3248222580,
   3835390401, 4022224774, 264347078, 604807628,
   770255983, 1249150122, 1555081692, 1996064986,
   2554220882, 2821834349, 2952996808, 3210313671,
   3336571891, 3584528711, 113926993, 338241895,
   666307205, 773529912, 1294757372, 1396182291,
   1695183700, 1986661051, 2177026350, 2456956037,
   2730485921, 2820302411, 3259730800, 3345764771,
   3516065817, 3600352804, 4094571909, 275423344,
   430227734, 506948616, 659060556, 883997877,
   958139571, 1322822218, 1537002063, 1747873779,
   1955562222, 2024104815, 2227730452, 2361852424,
   2428436474, 2756734187, 3204031479, 3329325298]

/-- The SHA-256 initial hash value. -/
def shaH0 : List Nat :=
  [1779033703, 3144134277, 1013904242, 2773480762,
   1359893119, 2600822924, 528734635, 1541459225]

/-- Small sigma 0 of the message schedule. -/
def ssig0 (x : Nat) : Nat := rotr32 7 x ^^^ rotr32 18 x ^^^ (x >>> 3)

/-- Small sigma 1 of the message schedule. -/
def ssig1 (x : Nat) : Nat := rotr32 17 x ^^^ rotr32 19 x ^^^ (x >>> 10)

/-- Big sigma 0 of the compression function. -/
def bsig0 (x : Nat) : Nat := rotr32 2 x ^^^ rotr32 13 x ^^^ rotr32 22 x

/-- Big sigma 1 of the compression function. -/
def bsig1 (x : Nat) : Nat := rotr32 6 x ^^^ rotr32 11 x ^^^ rotr32 25 x

/-- The choose function of the compression round. -/
def shaCh (e f g : Nat) : Nat := (e &&& f) ^^^ (not32 e &&& g)

/-- The majority function of the compression round. -/
def shaMaj (a b c : Nat) : Nat := (a &&& b) ^^^ (a &&& c) ^^^ (b &&& c)

/-- Group a byte list into big-endian 32-bit words (four bytes per word). -/
def bytesToWords : List Nat → List Nat
  | b0 :: b1 :: b2 :: b3 :: rest =>
      ((b0 <<< 24) ||| (b1 <<< 16) ||| (b2 <<< 8) ||| b3) :: bytesToWords rest
  | _ => []

/-- One extension step of the message schedule: append word `w[i]` computed
from `w[i-2]`, `w[i-7]`, `w[i-15]`, `w[i-16]` where `i` is the current
length. -/
def scheduleStep (w : List Nat) : List Nat :=
  let i := w.length
  w ++ [(ssig1 (w.getD (i - 2) 0) + w.getD (i - 7) 0
        + ssig0 (w.getD (i - 15) 0) + w.getD (i - 16) 0) % m32]

/-- Iterate the message-schedule extension `k` times. -/
def extendSchedule : Nat → List Nat → List Nat
  | 0, w => w
  | k + 1, w => extendSchedule k (scheduleStep w)

/-- Working state of the SHA-256 compression function. -/
structure ShaState where
  a : Nat
  b : Nat
  c : Nat
  d : Nat
  e : Nat
  f : Nat
  g : Nat
  h : Nat
deriving DecidableEq

/-- One SHA-256 compression round with round constant `k` and schedule
word `w`. -/
def shaRound (st : ShaState) (kw : Nat × Nat) : ShaState :=
  let t1 := (st.h + bsig1 st.e + shaCh st.e st.f st.g + kw.1 + kw.2) % m32
  let t2 := (bsig0 st.a + shaMaj st.a st.b st.c) % m32
  { a := (t1 + t2) % m32, b := st.a, c := st.b, d := st.c,
    e := (st.d + t1) % m32, f := st.e, g := st.f, h := st.g }

/-- Compress one 64-byte block into the running hash (eight words). -/
def compressBlock (hs : List Nat) (block : List Nat) : List Nat :=
  let w := extendSchedule 48 (bytesToWords block)
  let st0 : ShaState :=
    { a := hs.getD 0 0, b := hs.getD 1 0, c := hs.getD 2 0, d := hs.getD 3 0,
      e := hs.getD 4 0, f := hs.getD 5 0, g := hs.getD 6 0, h := hs.getD 7 0 }
  let st := (shaK.zip w).foldl shaRound st0
  [add32 (hs.getD 0 0) st.a, add32 (hs.getD 1 0) st.b,
   add32 (hs.getD 2 0) st.c, add32 (hs.getD 3 0) st.d,
   add32 (hs.getD 4 0) st.e, add32 (hs.getD 5 0) st.f,
   add32 (hs.getD 6 0) st.g, add32 (hs.getD 7 0) st.h]

/-- The big-endian 8-byte encoding of a (64-bit) length value. -/
def lenBytes64 (n : Nat) : List Nat :=
  [(n >>> 56) &&& 0xFF, (n >>> 48) &&& 0xFF, (n >>> 40) &&& 0xFF,
   (n >>> 32) &&& 0xFF, (n >>> 24) &&& 0xFF, (n >>> 16) &&& 0xFF,
   (n >>> 8) &&& 0xFF, n &&& 0xFF]

/-- SHA-256 padding: a 0x80 byte, zeros up to 56 mod 64, then the bit
length in 8 big-endian bytes. -/
def padMessage (msg : List Nat) : List Nat :=
  let l := msg.length
  let zeros := (119 - (l % 64)) % 64
  msg ++ [0x80] ++ List.replicate zeros 0 ++ lenBytes64 (8 * l)

/-- Fold the compression function over successive 64-byte blocks.  The
fuel argument only bounds the recursion; it is always instantiated with
the byte count, which is at least the number of blocks. -/
def processBlocks : Nat → List Nat → List Nat → List Nat
  | _, [], hs => hs
  | 0, _, hs => hs
  | fuel + 1, bytes, hs =>
      processBlocks fuel (bytes.drop 64) (compressBlock hs (bytes.take 64))

/-- The SHA-256 digest of a byte message, as eight 32-bit words. -/
def sha256Words (msg : List Nat) : List Nat :=
  let padded := padMessage msg
  processBlocks padded.length padded shaH0

/-- A lowercase hexadecimal digit. -/
def hexDigit (n : Nat) : Char :=
  if n < 10 then Char.ofNat (48 + n) else Char.ofNat (87 + n)

/-- Lowercase 8-digit hexadecimal rendering of one 32-bit word. -/
def word32Hex (x : Nat) : List Char :=
  [hexDigit ((x >>> 28) &&& 0xF), hexDigit ((x >>> 24) &&& 0xF),
   hexDigit ((x >>> 20) &&& 0xF), hexDigit ((x >>> 16) &&& 0xF),
   hexDigit ((x >>> 12) &&& 0xF), hexDigit ((x >>> 8) &&& 0xF),
   hexDigit ((x >>> 4) &&& 0xF), hexDigit (x &&& 0xF)]

/-- The hex-encoded SHA-256 digest of a byte message, as Go formats it
with the percent-x verb: 64 lowercase hex characters. -/
def sha256Hex (msg : List Nat) : String :=
  String.mk ((sha256Words msg).map word32Hex).flatten

/-! ## internal/checksum: whitespace normalization and Calculate -/

/-- Whether a character is whitespace for Go `unicode.IsSpace`, which is
what `strings.TrimSpace` trims by.  The Latin-1 range is listed exactly;
the higher Unicode space code points (category Zs, U+2000 etc.) are
included for completeness. -/
def goIsSpace (c : Char) : Bool :=
  c = ' ' || c = '\t' || c = '\n' || c.toNat = 0x0B || c.toNat = 0x0C ||
  c = '\r' || c.toNat = 0x85 || c.toNat = 0xA0 ||
  c.toNat = 0x1680 || (0x2000 ≤ c.toNat && c.toNat ≤ 0x200A) ||
  c.toNat = 0x2028 || c.toNat = 0x2029 || c.toNat = 0x202F ||
  c.toNat = 0x205F || c.toNat = 0x3000

/-- Go `strings.TrimSpace`: drop whitespace characters from both ends. -/
def trimChars (cs : List Char) : List Char :=
  ((cs.dropWhile goIsSpace).reverse.dropWhile goIsSpace).reverse

/-- Go `strings.Split(s, newline)`: the newline-separated pieces of a
character list, keeping empty pieces (splitting the empty string gives
one empty piece, as in Go). -/
def splitLines : List Char → List (List Char)
  | [] => [[]]
  | c :: rest =>
      if c = '\n' then [] :: splitLines rest
      else
        match splitLines rest with
        | l :: ls => (c :: l) :: ls
        | [] => [[c]]

/-- The line-filtering loop of `normalizeWhitecpace`: trim each line and
keep it when nonblank; keep a single empty line for each run of blank
lines.  The boolean accumulator is the `prevEmpty` flag of the Go loop. -/
def collapseLines : List (List Char) → Bool → List (List Char)
  | [], _ => []
  | line :: rest, prevEmpty =>
      let trimmed := trimChars line
      if trimmed.isEmpty then
        if prevEmpty then collapseLines rest true
        else [] :: collapseLines rest true
      else trimmed :: collapseLines rest false

/-- Go `strings.Join(lines, newline)` on character lists. -/
def joinLines : List (List Char) → List Char
  | [] => []
  | [l] => l
  | l :: ls => l ++ '\n' :: joinLines ls

/-- The checksum package's whitespace normalization (the function name
keeps the source's spelling): trim each line's leading and trailing
whitespace, collapse runs of blank lines to one, and trim leading and
trailing blank lines of the result. -/
def normalizeWhitecpace (s : String) : String :=
  String.mk (trimChars (joinLines (collapseLines (splitLines s.data) false)))

/-- Go function `checksum.Calculate`: the hex SHA-256 digest of the concatenated
bytes of the independently whitespace-normalized content strings (the Go
code writes each normalized chunk into one running hash, which hashes
their concatenation). -/
def Calculate (content : List String) : String :=
  sha256Hex (content.foldl (fun acc c => acc ++ utf8Bytes (normalizeWhitecpace c)) [])

/-! ## String helpers shared by the queen package -/

/-- Whether the character list starts with the given needle. -/
def listStartsWith : List Char → List Char → Bool
  | [], _ => true
  | _ :: _, [] => false
  | a :: as, b :: bs => a == b && listStartsWith as bs

/-- Whether the needle occurs in the haystack. -/
def listContainsSub (hay needle : List Char) : Bool :=
  match hay with
  | [] => needle.isEmpty
  | _ :: rest => listStartsWith needle hay || listContainsSub rest needle

/-- Go `strings.Contains(s, sub)`. -/
def strContains (s sub : String) : Bool :=
  listContainsSub s.data sub.data

/-- Go `strings.ToUpper` restricted to its action on ASCII letters, which
is all the destructive-keyword scan compares against. -/
def goToUpper (s : String) : String :=
  String.mk (s.data.map (fun c =>
    if 'a' ≤ c && c ≤ 'z' then Char.ofNat (c.toNat - 32) else c))

/-! ## Error taxonomy (errors.go)

The sentinel errors are distinct `errors.New` values; `MigrationError` is
the one wrapping error of the package.  `ErrNameTooLong` and
`ErrInvalidMigrationName` are used by `Migration.Validate` and listed in
the specification's error table; their `errors.New` definitions live in a
file not present under src/, so they are modelled from the spec as two
further distinct sentinels. -/

/-- A queen error value: the sentinel errors of errors.go plus the
`MigrationError` wrapper with its context fields. -/
inductive GoErr where
  | errNoMigrations
  | errVersionConflict
  | errMigrationNotFound
  | errChecksumMismatch
  | errLockTimeout
  | errNoDriver
  | errInvalidMigration
  | errAlreadyApplied
  | errNameTooLong
  | errInvalidMigrationName
  | migrationError (Version Name Operation Driver : String) (Cause : GoErr)
deriving DecidableEq

/-- Method `MigrationError.Unwrap`: a `MigrationError` unwraps to its `Cause`;
sentinel errors do not unwrap. -/
def GoErr.unwrap : GoErr → Option GoErr
  | .migrationError _ _ _ _ cause => some cause
  | _ => none

/-- Go `errors.Is(err, target)`: `err` matches `target` directly or
through its unwrap chain. -/
def errorsIs (err target : GoErr) : Bool :=
  err == target ||
    match err with
    | .migrationError _ _ _ _ cause => errorsIs cause target
    | _ => false

/-- Helper `newMigrationError`: wrap an error with full migration context. -/
def newMigrationError (version name operation driver : String) (err : GoErr) : GoErr :=
  .migrationError version name operation driver err

/-! ## Migration entity (migration.go) -/

/-- Validator `IsValidMigrationName`: the anchored regular expression
`[a-z0-9_]+` — nonempty, and every character a lowercase ASCII letter,
digit, or underscore. -/
def IsValidMigrationName (name : String) : Bool :=
  !name.data.isEmpty && name.data.all (fun c =>
    ('a' ≤ c && c ≤ 'z') || ('0' ≤ c && c ≤ '9') || c == '_')

/-- The `Migration` value type.  `UpFunc`/`DownFunc` are opaque Go
function values; only their nil-ness is ever inspected by the embedded
code, so they are modelled as `Option Unit`.  The `sync.Once` memoization
of the checksum is a caching detail with no observable effect on the
computed value and is dropped. -/
structure Migration where
  Version : String := ""
  Name : String := ""
  UpSQL : String := ""
  DownSQL : String := ""
  UpFunc : Option Unit := none
  DownFunc : Option Unit := none
  ManualChecksum : String := ""
  IsolationLevel : Nat := 0
deriving DecidableEq

/-- Method `Migration.Validate`: Version must be nonempty, space-free and
grammar-valid (else InvalidMigration); Name must be at most 63 bytes
(else NameTooLong), nonempty and grammar-valid (else
InvalidMigrationName); at least one up form must be present (else
InvalidMigration).  `none` is the nil error. -/
def Migration.Validate (m : Migration) : Option GoErr :=
  if m.Version == "" || strContains m.Version " " || !IsValidMigrationName m.Version then
    some .errInvalidMigration
  else if 63 < goStrLen m.Name then
    some .errNameTooLong
  else if m.Name == "" || !IsValidMigrationName m.Name then
    some .errInvalidMigrationName
  else if m.UpSQL == "" && m.UpFunc == none then
    some .errInvalidMigration
  else
    none

/-- The marker checksum for Go-function migrations without a manual
checksum. -/
def noChecksumMarker : String := "no-checksum-go-func"

/-- Method `Migration.Checksum`: the manual checksum verbatim when set;
otherwise the content hash of the SQL bodies when either is present;
otherwise the no-checksum marker. -/
def Migration.Checksum (m : Migration) : String :=
  if m.ManualChecksum != "" then m.ManualChecksum
  else if m.UpSQL != "" || m.DownSQL != "" then Calculate [m.UpSQL, m.DownSQL]
  else noChecksumMarker

/-- Method `Migration.HasRollback`: a down form is present. -/
def Migration.HasRollback (m : Migration) : Bool :=
  m.DownSQL != "" || m.DownFunc != none

/-- Method `Migration.IsDestructive`: the upper-cased DownSQL contains one of
the four destructive keywords; an empty DownSQL is never destructive. -/
def Migration.IsDestructive (m : Migration) : Bool :=
  if m.DownSQL == "" then false
  else
    let sql := goToUpper m.DownSQL
    ["DROP TABLE", "DROP DATABASE", "DROP SCHEMA", "TRUNCATE"].any
      (fun keyword => strContains sql keyword)

/-- What a call to `executeUp`/`executeDown` does inside the
transaction: run the Go callback, execute a SQL text, or fail with
InvalidMigration when neither body exists. -/
inductive ExecBody where
  | callFunc
  | execSQL (sql : String)
  | failInvalid
deriving DecidableEq

/-- Method `Migration.executeUp`: the callback runs when non-nil; otherwise the
SQL text is executed when nonempty; otherwise InvalidMigration. -/
def Migration.executeUp (m : Migration) : ExecBody :=
  if m.UpFunc != none then .callFunc
  else if m.UpSQL != "" then .execSQL m.UpSQL
  else .failInvalid

/-- Method `Migration.executeDown`: the callback runs when non-nil; otherwise
the SQL text is executed when nonempty; otherwise InvalidMigration. -/
def Migration.executeDown (m : Migration) : ExecBody :=
  if m.DownFunc != none then .callFunc
  else if m.DownSQL != "" then .execSQL m.DownSQL
  else .failInvalid

/-! ## Lock table (drivers/cockroachdb, drivers/clickhouse)

A lock table holds rows (lock_key, acquired_at, expires_at, owner_id);
the SQL DELETE statements of the drivers are embedded by their effect on
the row list. -/

/-- One row of a driver's lock table. -/
structure LockRow where
  lockKey : String
  ownerID : String
  expiresAt : Nat
deriving DecidableEq

/-- The effect on the lock table of the DELETE issued by
`Driver.Unlock` in drivers/cockroachdb/cockroachdb.go
(`DELETE FROM locks WHERE lock_key = $1`) and in
drivers/clickhouse/clickhouse.go
(`ALTER TABLE locks DELETE WHERE lock_key = ?`): every row whose
lock_key matches the caller's key is removed, whatever its owner_id. -/
def unlockByKeyDelete (table : List LockRow) (lockKey : String) : List LockRow :=
  table.filter (fun r => !(r.lockKey == lockKey))

/-- Modelled from the spec: the release step of the lock-table protocol,
DELETE of the rows matching both LockKey and OwnerID.  (The repository
also contains this owner-checked form of `Unlock`, issuing
`DELETE FROM locks WHERE lock_key = $1 AND owner_id = $2`.) -/
def unlockByKeyAndOwnerDelete (table : List LockRow) (lockKey ownerID : String) :
    List LockRow :=
  table.filter (fun r => !(r.lockKey == lockKey && r.ownerID == ownerID))

/-! ## Lock acquire loop (drivers/base/tablelock.go)

`AcquireTableLock` loops: best-effort cleanup, check for an active lock,
insert when absent, and otherwise retry after a timeout check and an
exponential-backoff sleep that the caller's context can interrupt.  The
environment — what the database answers and what happens during the
sleep — is an input trace; the loop body is embedded over it.  Times are
milliseconds. -/

/-- The database's combined answer to one attempt of the loop: the check
query failed, an active lock row exists, the insert was attempted and
failed (lost a race), or the insert succeeded. -/
inductive AttemptOutcome where
  | scanErr
  | lockHeld
  | insertFailed
  | insertOk
deriving DecidableEq

/-- What happens during the backoff select: the sleep timer fires, or
the caller's context is cancelled first. -/
inductive WaitOutcome where
  | slept
  | cancelled
deriving DecidableEq

/-- One iteration of the environment trace: the attempt's outcome, the
value `time.Since(start)` reads at the retry check, and how the backoff
select resolves. -/
structure LockIter where
  outcome : AttemptOutcome
  elapsed : Nat
  wait : WaitOutcome
deriving DecidableEq

/-- How a run of `AcquireTableLock` returns: nil (lock acquired),
`queen.ErrLockTimeout`, or the context's cancellation error. -/
inductive LockResult where
  | acquired
  | lockTimeout
  | cancelled
deriving DecidableEq

/-- The loop of `AcquireTableLock`, over an environment trace:
a successful insert returns nil; otherwise the deadline check compares
elapsed time against the timeout and returns LockTimeout when reached;
otherwise the loop sleeps the current backoff (doubling it, capped at
1000 ms, for the next round) or returns the cancellation error.  `none`
means the trace ended before the loop did. -/
def acquireTableLock (timeout : Nat) : Nat → List LockIter → Option LockResult
  | _, [] => none
  | backoff, it :: rest =>
      if it.outcome == .insertOk then some .acquired
      else if timeout ≤ it.elapsed then some .lockTimeout
      else
        match it.wait with
        | .cancelled => some .cancelled
        | .slept => acquireTableLock timeout (min (backoff * 2) 1000) rest

/-- The successive sleep durations of a run of the loop: the current
backoff at each iteration that reaches the backoff select and sleeps. -/
def sleepDurations (timeout : Nat) : Nat → List LockIter → List Nat
  | _, [] => []
  | backoff, it :: rest =>
      if it.outcome == .insertOk then []
      else if timeout ≤ it.elapsed then []
      else
        match it.wait with
        | .cancelled => []
        | .slept => backoff :: sleepDurations timeout (min (backoff * 2) 1000) rest

/-! ## Supporting lemmas -/

/-- Applying `Calculate` to an UpSQL/DownSQL pair hashes the concatenation of the
two normalized bodies. -/
theorem Calculate_pair (a b : String) :
    Calculate [a, b]
      = sha256Hex (utf8Bytes (normalizeWhitecpace a ++ normalizeWhitecpace b)) := by
  unfold Calculate
  rw [utf8Bytes_append]
  simp [List.foldl]

/-- A string is unchanged by deleting its whitespace characters exactly
when a reformat produced it by changing only whitespace.  Two strings
related by a whitespace-only reformat strip to the same string. -/
def stripWhitespace (s : String) : String :=
  String.mk (s.data.filter (fun c => !goIsSpace c))

/-- Capping commutes with later scaling: capping at `c`, scaling by a
positive factor and capping again is capping the scaled value. -/
theorem min_cap_mul (a c x : Nat) (hx : 1 ≤ x) :
    min (min a c * x) c = min (a * x) c := by
  rcases Nat.le_total a c with h | h
  · rw [Nat.min_eq_left h]
  · rw [Nat.min_eq_right h]
    have hc : c ≤ c * x := Nat.le_mul_of_pos_right c hx
    have ha : c ≤ a * x := le_trans hc (Nat.mul_le_mul_right x h)
    rw [Nat.min_eq_right hc, Nat.min_eq_right ha]

/-- Unfolding lemma for `sleepDurations` on a nonempty trace. -/
theorem sleepDurations_cons (timeout b : Nat) (it : LockIter) (rest : List LockIter) :
    sleepDurations timeout b (it :: rest)
      = if it.outcome == AttemptOutcome.insertOk then []
        else if timeout ≤ it.elapsed then []
        else
          match it.wait with
          | .cancelled => []
          | .slept => b :: sleepDurations timeout (min (b * 2) 1000) rest := rfl

/-- The `i`-th sleep of the backoff loop started at backoff `b ≤ 1000`
lasts `min (b * 2 ^ i) 1000` milliseconds. -/
theorem sleepDurations_get (timeout : Nat) :
    ∀ (tr : List LockIter) (b : Nat), b ≤ 1000 →
      ∀ i : Nat, i < (sleepDurations timeout b tr).length →
        (sleepDurations timeout b tr).getD i 0 = min (b * 2 ^ i) 1000 := by
  intro tr
  induction tr with
  | nil =>
      intro b hb i h
      simp [sleepDurations] at h
  | cons it rest ih =>
      intro b hb i h
      rw [sleepDurations_cons] at h ⊢
      by_cases h1 : it.outcome == AttemptOutcome.insertOk
      · simp [h1] at h
      by_cases h2 : timeout ≤ it.elapsed
      · simp [h1, h2] at h
      cases hw : it.wait with
      | cancelled => simp [h1, h2, hw] at h
      | slept =>
          rw [hw] at h
          simp only [h1, h2, if_neg, if_false, Bool.false_eq_true] at h ⊢
          cases i with
          | zero =>
              simp [Nat.min_eq_left hb]
          | succ i =>
              have hb2 : min (b * 2) 1000 ≤ 1000 := Nat.min_le_right _ _
              have h' : i < (sleepDurations timeout (min (b * 2) 1000) rest).length := by
                simpa using h
              have hrec := ih (min (b * 2) 1000) hb2 i h'
              simp only [List.getD_cons_succ]
              rw [hrec, min_cap_mul _ _ _ (Nat.one_le_two_pow), Nat.mul_assoc]
              rw [Nat.pow_succ, Nat.mul_comm (2 ^ i) 2]

/-- When every attempt of the trace fails, every wait sleeps, and some
iteration observes elapsed time at or past the timeout, the loop returns
LockTimeout — from any current backoff. -/
theorem acquireTableLock_timeout :
    ∀ (tr : List LockIter) (timeout b : Nat),
      (∀ it ∈ tr, it.outcome ≠ AttemptOutcome.insertOk) →
      (∀ it ∈ tr, it.wait = WaitOutcome.slept) →
      (∃ it ∈ tr, timeout ≤ it.elapsed) →
      acquireTableLock timeout b tr = some LockResult.lockTimeout := by
  intro tr
  induction tr with
  | nil =>
      intro timeout b _ _ hex
      rcases hex with ⟨it, hmem, _⟩
      simp at hmem
  | cons it rest ih =>
      intro timeout b hfail hslept hex
      have h1 : it.outcome ≠ AttemptOutcome.insertOk := hfail it (by simp)
      unfold acquireTableLock
      by_cases h2 : timeout ≤ it.elapsed
      · simp [h1, h2]
      · have hw : it.wait = WaitOutcome.slept := hslept it (by simp)
        simp only [beq_iff_eq, h1, if_neg, h2, if_false, hw]
        apply ih timeout (min (b * 2) 1000)
        · intro j hj; exact hfail j (by simp [hj])
        · intro j hj; exact hslept j (by simp [hj])
        · rcases hex with ⟨j, hj, hje⟩
          rcases List.mem_cons.mp hj with rfl | hj'
          · exact absurd hje h2
          · exact ⟨j, hj', hje⟩

/-- When the attempts before some iteration all fail in time and sleep,
and that iteration fails, is within the deadline, and sees the context
cancelled during its backoff wait, the loop returns the cancellation
error — from any current backoff. -/
theorem acquireTableLock_cancelled :
    ∀ (pre : List LockIter) (timeout b : Nat) (it : LockIter) (rest : List LockIter),
      (∀ j ∈ pre, j.outcome ≠ AttemptOutcome.insertOk ∧
        j.wait = WaitOutcome.slept ∧ j.elapsed < timeout) →
      it.outcome ≠ AttemptOutcome.insertOk → it.elapsed < timeout →
      it.wait = WaitOutcome.cancelled →
      acquireTableLock timeout b (pre ++ it :: rest) = some LockResult.cancelled := by
  intro pre
  induction pre with
  | nil =>
      intro timeout b it rest _ h1 h2 h3
      unfold acquireTableLock
      simp [h1, Nat.not_le.mpr h2, h3]
  | cons j pre ih =>
      intro timeout b it rest hpre h1 h2 h3
      have hj := hpre j (by simp)
      unfold acquireTableLock
      simp only [List.cons_append, beq_iff_eq, hj.1, if_neg,
        Nat.not_le.mpr hj.2.2, if_false, hj.2.1]
      exact ih timeout (min (b * 2) 1000) it rest
        (fun k hk => hpre k (by simp [hk])) h1 h2 h3

/-! ## The claims -/

/-- C1.  The claim reads: for every driver that implements the
lock-table protocol, Unlock deletes only lock rows whose LockKey and
OwnerID both match the calling Engine instance's values; a lock row
inserted by a different owner is never deleted by Unlock.  The cited
`Unlock` of the cockroachdb and clickhouse drivers deletes by lock key
alone: at a table holding one lock row owned by owner B, owner A's
Unlock deletes B's row, which the owner-checked DELETE of the lock-table
protocol (also present elsewhere in the repository, and demanded by the
repository's own cross-process unlock test) would have kept. -/
theorem unlock_deletes_foreign_owner_row :
    unlockByKeyDelete
        [⟨"migration_lock", "bbbbbbbbbbbbbbbbbbbbbbbbbbbbbbbb", 600⟩]
        "migration_lock" = [] ∧
    unlockByKeyAndOwnerDelete
        [⟨"migration_lock", "bbbbbbbbbbbbbbbbbbbbbbbbbbbbbbbb", 600⟩]
        "migration_lock" "aaaaaaaaaaaaaaaaaaaaaaaaaaaaaaaa"
      = [⟨"migration_lock", "bbbbbbbbbbbbbbbbbbbbbbbbbbbbbbbb", 600⟩] ∧
    ("aaaaaaaaaaaaaaaaaaaaaaaaaaaaaaaa" : String)
      ≠ "bbbbbbbbbbbbbbbbbbbbbbbbbbbbbbbb" := by
  decide

/-- C7.  Every `MigrationError` wrapping a cause unwraps to that cause,
and `errors.Is` on the wrapped error matches whatever the cause
matches — in particular the sentinel error kinds. -/
theorem migration_error_unwraps_to_cause :
    ∀ (v n op d : String) (cause : GoErr),
      (newMigrationError v n op d cause).unwrap = some cause ∧
      ∀ target : GoErr, errorsIs cause target = true →
        errorsIs (newMigrationError v n op d cause) target = true := by
  intro v n op d cause
  refine ⟨rfl, ?_⟩
  intro target h
  show errorsIs (GoErr.migrationError v n op d cause) target = true
  have e : errorsIs (GoErr.migrationError v n op d cause) target
      = ((GoErr.migrationError v n op d cause == target) || errorsIs cause target) := rfl
  rw [e, h, Bool.or_true]

/-- Witness for C7: wrapping `ErrLockTimeout` with migration context
unwraps to it and still matches it through `errors.Is`. -/
theorem migration_error_unwraps_to_cause_witness :
    (newMigrationError "001" "create_users" "up" "postgres" GoErr.errLockTimeout).unwrap
        = some GoErr.errLockTimeout ∧
    errorsIs (newMigrationError "001" "create_users" "up" "postgres" GoErr.errLockTimeout)
        GoErr.errLockTimeout = true :=
  ⟨(migration_error_unwraps_to_cause "001" "create_users" "up" "postgres"
      GoErr.errLockTimeout).1,
   (migration_error_unwraps_to_cause "001" "create_users" "up" "postgres"
      GoErr.errLockTimeout).2 GoErr.errLockTimeout (by decide)⟩

/-- C8.  A migration is destructive exactly when the upper-cased DownSQL
contains one of DROP TABLE, DROP DATABASE, DROP SCHEMA, or TRUNCATE —
that is, when the DownSQL case-insensitively contains one of those
keywords; in particular an empty DownSQL is never destructive. -/
theorem is_destructive_iff_down_sql_keyword (m : Migration) :
    (m.IsDestructive
      = (strContains (goToUpper m.DownSQL) "DROP TABLE" ||
         strContains (goToUpper m.DownSQL) "DROP DATABASE" ||
         strContains (goToUpper m.DownSQL) "DROP SCHEMA" ||
         strContains (goToUpper m.DownSQL) "TRUNCATE")) ∧
    (m.DownSQL = "" → m.IsDestructive = false) := by
  constructor
  · unfold Migration.IsDestructive
    by_cases h : m.DownSQL = ""
    · rw [h]
      decide
    · simp only [beq_iff_eq, h, if_false, List.any_cons, List.any_nil,
        Bool.or_false, if_neg, Bool.or_assoc]
  · intro h
    unfold Migration.IsDestructive
    rw [h]
    decide

/-- Witness for C8: a migration with empty DownSQL is not destructive;
the equality part at a concrete dropping rollback. -/
theorem is_destructive_iff_down_sql_keyword_witness :
    Migration.IsDestructive { Version := "001", Name := "m", UpSQL := "SELECT 1" }
      = false ∧
    Migration.IsDestructive
        { Version := "001", Name := "m", UpSQL := "CREATE TABLE t (id INT)",
          DownSQL := "drop table t" }
      = (strContains (goToUpper "drop table t") "DROP TABLE" ||
         strContains (goToUpper "drop table t") "DROP DATABASE" ||
         strContains (goToUpper "drop table t") "DROP SCHEMA" ||
         strContains (goToUpper "drop table t") "TRUNCATE") :=
  ⟨(is_destructive_iff_down_sql_keyword
      { Version := "001", Name := "m", UpSQL := "SELECT 1" }).2 rfl,
   (is_destructive_iff_down_sql_keyword
      { Version := "001", Name := "m", UpSQL := "CREATE TABLE t (id INT)",
        DownSQL := "drop table t" }).1⟩

/-- C9.  When the up (down) callback is non-nil, executing the up (down)
body runs the callback and never the SQL text, even when both are set;
the SQL text runs only when the corresponding callback is nil, and it is
exactly the migration's own SQL body. -/
theorem execute_prefers_callback_over_sql (m : Migration) :
    (m.UpFunc ≠ none → m.executeUp = ExecBody.callFunc) ∧
    (m.DownFunc ≠ none → m.executeDown = ExecBody.callFunc) ∧
    (∀ s, m.executeUp = ExecBody.execSQL s → m.UpFunc = none ∧ s = m.UpSQL) ∧
    (∀ s, m.executeDown = ExecBody.execSQL s → m.DownFunc = none ∧ s = m.DownSQL) := by
  refine ⟨?_, ?_, ?_, ?_⟩
  · intro h
    unfold Migration.executeUp
    simp [h]
  · intro h
    unfold Migration.executeDown
    simp [h]
  · intro s h
    unfold Migration.executeUp at h
    by_cases hf : m.UpFunc = none
    · refine ⟨hf, ?_⟩
      simp only [hf, bne_self_eq_false, if_false, Bool.false_eq_true] at h
      by_cases hs : m.UpSQL = ""
      · simp [hs] at h
      · simp [hs] at h
        exact h.symm
    · simp [hf] at h
  · intro s h
    unfold Migration.executeDown at h
    by_cases hf : m.DownFunc = none
    · refine ⟨hf, ?_⟩
      simp only [hf, bne_self_eq_false, if_false, Bool.false_eq_true] at h
      by_cases hs : m.DownSQL = ""
      · simp [hs] at h
      · simp [hs] at h
        exact h.symm
    · simp [hf] at h

/-- Witness for C9: on a mixed migration carrying both SQL texts and
both callbacks, execution runs the callbacks. -/
theorem execute_prefers_callback_over_sql_witness :
    Migration.executeUp
        { Version := "001", Name := "mix", UpSQL := "CREATE TABLE t (id INT)",
          DownSQL := "DROP TABLE t", UpFunc := some (), DownFunc := some (),
          ManualChecksum := "v1" }
      = ExecBody.callFunc ∧
    Migration.executeDown
        { Version := "001", Name := "mix", UpSQL := "CREATE TABLE t (id INT)",
          DownSQL := "DROP TABLE t", UpFunc := some (), DownFunc := some (),
          ManualChecksum := "v1" }
      = ExecBody.callFunc :=
  ⟨(execute_prefers_callback_over_sql
      { Version := "001", Name := "mix", UpSQL := "CREATE TABLE t (id INT)",
        DownSQL := "DROP TABLE t", UpFunc := some (), DownFunc := some (),
        ManualChecksum := "v1" }).1 (by decide),
   (execute_prefers_callback_over_sql
      { Version := "001", Name := "mix", UpSQL := "CREATE TABLE t (id INT)",
        DownSQL := "DROP TABLE t", UpFunc := some (), DownFunc := some (),
        ManualChecksum := "v1" }).2.1 (by decide)⟩

/-- C10.  `Calculate` hashes the concatenation of the independently
normalized inputs with no separator, so distinct (UpSQL, DownSQL) pairs
can collide: moving the final semicolon from the end of the up body to
the start of the down body leaves the checksum unchanged. -/
theorem calculate_concatenation_collision :
    ∃ up down up' down' : String,
      (up, down) ≠ (up', down') ∧
      Calculate [up, down] = Calculate [up', down'] :=
  ⟨"DROP TABLE t;", "", "DROP TABLE t", ";", by decide, rfl⟩

/-- The checksum policy in the specification's words: the manual
checksum verbatim when set; otherwise, when either SQL body is nonempty,
the hex SHA-256 digest of the two whitespace-normalized bodies
concatenated; otherwise the sentinel marker string. -/
def checksumPolicySpec (m : Migration) : String :=
  if m.ManualChecksum ≠ "" then
    m.ManualChecksum
  else if m.UpSQL ≠ "" ∨ m.DownSQL ≠ "" then
    sha256Hex (utf8Bytes (normalizeWhitecpace m.UpSQL ++ normalizeWhitecpace m.DownSQL))
  else
    "no-checksum-go-func"

/-- C3.  `Migration.Checksum` computes exactly the specified policy:
manual checksum verbatim; else hex SHA-256 of the normalized SQL bodies
when either is present; else the sentinel "no-checksum-go-func". -/
theorem migration_checksum_matches_policy (m : Migration) :
    m.Checksum = checksumPolicySpec m := by
  unfold Migration.Checksum checksumPolicySpec
  by_cases h1 : m.ManualChecksum = ""
  · by_cases h2 : m.UpSQL = "" <;> by_cases h3 : m.DownSQL = "" <;>
      simp [h1, h2, h3, noChecksumMarker, Calculate_pair]
  · simp [h1]

/-- C2, counterexample.  The claim quantifies over every reformat that
only changes whitespace, but the normalization only touches line-leading
and line-trailing whitespace and blank lines: widening the space inside
a line is a whitespace-only reformat (the strings agree after deleting
all whitespace) that changes the checksum. -/
theorem calculate_changes_under_inline_whitespace :
    stripWhitespace "a b" = stripWhitespace "a  b" ∧
    Calculate ["a b"] ≠ Calculate ["a  b"] := by
  constructor
  · rfl
  · decide

/-- C2, as amended.  The checksum is stable across exactly the
reformattings the normalization undoes: whenever two bodies have the
same whitespace-normalized form — i.e. they differ only in line-edge
whitespace and in blank-line runs — their checksums agree. -/
theorem calculate_stable_across_normal_form (s t : String)
    (h : normalizeWhitecpace s = normalizeWhitecpace t) :
    Calculate [s] = Calculate [t] := by
  unfold Calculate
  simp [List.foldl, h]

/-- Witness for amended C2: re-indenting a statement and adding trailing
blank lines leaves the checksum unchanged. -/
theorem calculate_stable_across_normal_form_witness :
    Calculate ["\t\tCREATE TABLE users (id INT);\n\n"]
      = Calculate ["CREATE TABLE users (id INT);"] :=
  calculate_stable_across_normal_form
    "\t\tCREATE TABLE users (id INT);\n\n" "CREATE TABLE users (id INT);" (by decide)

/-- C4.  The claim reads: when the name-pattern validator is not
enabled, a migration with any nonempty whitespace-free Version passes
structural validation, e.g. Version "v1.0.0".  `Migration.Validate`
enforces the `[a-z0-9_]+` grammar on Version unconditionally — no
name-pattern configuration is consulted — so the dotted Version of the
migration below, nonempty and space-free, and listed verbatim as a valid
example in the `Migration` struct's own documentation, is rejected with
InvalidMigration. -/
theorem validate_rejects_dotted_version_always :
    Migration.Validate
        { Version := "v1.0.0", Name := "create_users",
          UpSQL := "CREATE TABLE users (id INT)" }
      = some GoErr.errInvalidMigration ∧
    ("v1.0.0" : String) ≠ "" ∧
    strContains "v1.0.0" " " = false := by
  decide

/-- C6, counterexample.  Go `len` counts bytes, not characters: a Name
of forty two-byte characters is eighty bytes long but only forty
characters, so the claim's reading — NameTooLong only past 63
characters, and other grammar violations of Name reported as
InvalidMigrationName — assigns this migration InvalidMigrationName,
while the code reports NameTooLong. -/
theorem validate_name_length_counted_in_bytes :
    Migration.Validate
        { Version := "001", Name := String.mk (List.replicate 40 'é'),
          UpSQL := "CREATE TABLE t (id INT)" }
      = some GoErr.errNameTooLong ∧
    (String.mk (List.replicate 40 'é')).length ≤ 63 ∧
    IsValidMigrationName (String.mk (List.replicate 40 'é')) = false ∧
    GoErr.errNameTooLong ≠ GoErr.errInvalidMigrationName := by
  decide

/-- C6, as amended.  Validation fails exactly when Version is empty,
contains a space, or fails the name grammar; or Name is empty, longer
than 63 UTF-8 bytes, or fails the name grammar; or neither UpSQL nor an
up-callback is present.  For a well-formed Version, a Name longer than
63 bytes is reported as NameTooLong, and a Name of at most 63 bytes that
is empty or fails the grammar is reported as InvalidMigrationName. -/
theorem validate_error_characterization (m : Migration) :
    (m.Validate = none ↔
      (m.Version ≠ "" ∧ strContains m.Version " " = false ∧
       IsValidMigrationName m.Version = true ∧
       goStrLen m.Name ≤ 63 ∧ m.Name ≠ "" ∧ IsValidMigrationName m.Name = true ∧
       (m.UpSQL ≠ "" ∨ m.UpFunc ≠ none))) ∧
    (m.Version ≠ "" → strContains m.Version " " = false →
      IsValidMigrationName m.Version = true →
      63 < goStrLen m.Name → m.Validate = some GoErr.errNameTooLong) ∧
    (m.Version ≠ "" → strContains m.Version " " = false →
      IsValidMigrationName m.Version = true →
      goStrLen m.Name ≤ 63 → (m.Name = "" ∨ IsValidMigrationName m.Name = false) →
      m.Validate = some GoErr.errInvalidMigrationName) := by
  unfold Migration.Validate
  by_cases h1 : m.Version = "" <;>
  by_cases h2 : strContains m.Version " " = true <;>
  by_cases h3 : IsValidMigrationName m.Version = true <;>
  by_cases h4 : 63 < goStrLen m.Name <;>
  by_cases h5 : m.Name = "" <;>
  by_cases h6 : IsValidMigrationName m.Name = true <;>
  by_cases h7 : m.UpSQL = "" <;>
  by_cases h8 : m.UpFunc = none <;>
    (try simp_all [Nat.not_lt]) <;> (try (split <;> simp_all))

/-- Witness for amended C6: a well-formed migration validates to nil; a
grammar-valid Name of 64 ASCII bytes is rejected as NameTooLong; an
empty Name is rejected as InvalidMigrationName. -/
theorem validate_error_characterization_witness :
    Migration.Validate
        { Version := "001", Name := "create_users", UpSQL := "CREATE TABLE t (id INT)" }
      = none ∧
    Migration.Validate
        { Version := "001",
          Name := String.mk (List.replicate 64 'a'),
          UpSQL := "CREATE TABLE t (id INT)" }
      = some GoErr.errNameTooLong ∧
    Migration.Validate
        { Version := "001", Name := "", UpSQL := "CREATE TABLE t (id INT)" }
      = some GoErr.errInvalidMigrationName :=
  ⟨(validate_error_characterization
      { Version := "001", Name := "create_users",
        UpSQL := "CREATE TABLE t (id INT)" }).1.mpr (by decide),
   (validate_error_characterization
      { Version := "001", Name := String.mk (List.replicate 64 'a'),
        UpSQL := "CREATE TABLE t (id INT)" }).2.1
     (by decide) (by decide) (by decide) (by decide),
   (validate_error_characterization
      { Version := "001", Name := "", UpSQL := "CREATE TABLE t (id INT)" }).2.2
     (by decide) (by decide) (by decide) (by decide) (by decide)⟩

/-- C5.  In the lock-table acquire loop, started at its initial 50 ms
backoff: the i-th sleep lasts min (50·2^i) 1000 milliseconds — 50 ms
first, doubling, capped at one second; a run whose attempts all fail,
whose waits all sleep, and which observes elapsed time reach the timeout
returns LockTimeout; and a run whose context is cancelled during a
backoff wait before the deadline returns the cancellation error rather
than acquiring. -/
theorem acquire_table_lock_backoff_timeout_cancel (timeout : Nat) :
    (∀ (tr : List LockIter) (i : Nat),
        i < (sleepDurations timeout 50 tr).length →
        (sleepDurations timeout 50 tr).getD i 0 = min (50 * 2 ^ i) 1000) ∧
    (∀ tr : List LockIter,
        (∀ it ∈ tr, it.outcome ≠ AttemptOutcome.insertOk) →
        (∀ it ∈ tr, it.wait = WaitOutcome.slept) →
        (∃ it ∈ tr, timeout ≤ it.elapsed) →
        acquireTableLock timeout 50 tr = some LockResult.lockTimeout) ∧
    (∀ (pre rest : List LockIter) (it : LockIter),
        (∀ j ∈ pre, j.outcome ≠ AttemptOutcome.insertOk ∧
          j.wait = WaitOutcome.slept ∧ j.elapsed < timeout) →
        it.outcome ≠ AttemptOutcome.insertOk → it.elapsed < timeout →
        it.wait = WaitOutcome.cancelled →
        acquireTableLock timeout 50 (pre ++ it :: rest)
          = some LockResult.cancelled) := by
  refine ⟨?_, ?_, ?_⟩
  · intro tr i h
    exact sleepDurations_get timeout tr 50 (by decide) i h
  · intro tr hfail hslept hex
    exact acquireTableLock_timeout tr timeout 50 hfail hslept hex
  · intro pre rest it hpre h1 h2 h3
    exact acquireTableLock_cancelled pre timeout 50 it rest hpre h1 h2 h3

/-- Witness for C5 at concrete traces: six failed contended rounds sleep
50, 100, 200, 400, 800 and then the capped 1000 ms; a run that reaches
elapsed 200 ≥ 150 with only failures returns LockTimeout; cancellation
on the second round before the deadline returns the cancellation
error. -/
theorem acquire_table_lock_backoff_timeout_cancel_witness :
    (sleepDurations 900000 50 (List.replicate 6 ⟨AttemptOutcome.insertFailed, 10,
        WaitOutcome.slept⟩)).getD 5 0 = min (50 * 2 ^ 5) 1000 ∧
    acquireTableLock 150 50
        [⟨AttemptOutcome.lockHeld, 0, WaitOutcome.slept⟩,
         ⟨AttemptOutcome.insertFailed, 200, WaitOutcome.slept⟩]
      = some LockResult.lockTimeout ∧
    acquireTableLock 150 50
        ([⟨AttemptOutcome.scanErr, 20, WaitOutcome.slept⟩] ++
          ⟨AttemptOutcome.lockHeld, 70, WaitOutcome.cancelled⟩ :: [])
      = some LockResult.cancelled :=
  ⟨(acquire_table_lock_backoff_timeout_cancel 900000).1
     (List.replicate 6 ⟨AttemptOutcome.insertFailed, 10, WaitOutcome.slept⟩) 5
     (by decide),
   (acquire_table_lock_backoff_timeout_cancel 150).2.1
     [⟨AttemptOutcome.lockHeld, 0, WaitOutcome.slept⟩,
      ⟨AttemptOutcome.insertFailed, 200, WaitOutcome.slept⟩]
     (by decide) (by decide) (by decide),
   (acquire_table_lock_backoff_timeout_cancel 150).2.2
     [⟨AttemptOutcome.scanErr, 20, WaitOutcome.slept⟩] []
     ⟨AttemptOutcome.lockHeld, 70, WaitOutcome.cancelled⟩
     (by decide) (by decide) (by decide) (by decide)⟩

end Queen
